import Mathlib

set_option autoImplicit false

/-
Verification development for the serverless-gateway relay agent.

The Rust sources are shallowly embedded:
  * `BTreeMap<K, V>` is modelled as an association list with strictly
    ascending keys (`omap*` helpers); its iteration order (`keys`, `values`)
    is the list order, matching the key-sorted iteration of a B-tree map.
  * `BTreeSet<U256>` is modelled as a strictly ascending duplicate-free
    `List Nat` (`set*` helpers).
  * Machine integers (`u64`, `U256`) are modelled as `Nat`; none of the
    verified claims hinges on wrap-around behaviour.
  * Opaque byte strings (enclave public keys) and 20-byte addresses are
    modelled as `Nat` identifiers.
  * The PRNG (`StdRng::seed_from_u64` / `gen_range(1..=n)`) is an external
    library; it is modelled by an abstract deterministic state-passing
    generator `gen : σ → Nat → Nat × σ` together with a seeding function
    `seed_from_u64 : Nat → σ`, so the theorems hold for every deterministic
    generator.  `gen_range` on the empty range `1..=0` panics in `rand`;
    that panic is modelled as an explicit error value.
  * Rust panics (`unwrap` on `None`, out-of-bounds indexing) are modelled
    as `Except` error values.
-/

namespace ServerlessGateway

/-- Lookup in a `BTreeMap` model: value of the first entry with the given key. -/
def omapGet {V : Type} (m : List (Nat × V)) (k : Nat) : Option V :=
  (m.find? (fun kv => kv.1 == k)).map (fun kv => kv.2)

/-- Insert into a `BTreeMap` model, replacing an existing binding and keeping
keys ascending (mirrors `BTreeMap::insert`). -/
def omapInsert {V : Type} : List (Nat × V) → Nat → V → List (Nat × V)
  | [], k, v => [(k, v)]
  | kv :: rest, k, v =>
    if k < kv.1 then (k, v) :: kv :: rest
    else if k = kv.1 then (k, v) :: rest
    else kv :: omapInsert rest k v

/-- Remove a key from a `BTreeMap` model (mirrors `BTreeMap::remove`). -/
def omapRemove {V : Type} (m : List (Nat × V)) (k : Nat) : List (Nat × V) :=
  m.filter (fun kv => !(kv.1 == k))

/-- In-place update through `BTreeMap::get_mut`: when the key is present its
value is rewritten, otherwise the map is untouched. -/
def omapModify {V : Type} (m : List (Nat × V)) (k : Nat) (f : V → V) : List (Nat × V) :=
  m.map (fun kv => if kv.1 = k then (kv.1, f kv.2) else kv)

/-- Keys of a `BTreeMap` model in iteration (ascending) order. -/
def omapKeys {V : Type} (m : List (Nat × V)) : List Nat :=
  m.map (fun kv => kv.1)

/-- Insert into a `BTreeSet` model (sorted, duplicate-free list). -/
def setInsert : List Nat → Nat → List Nat
  | [], c => [c]
  | x :: rest, c =>
    if c < x then c :: x :: rest
    else if c = x then x :: rest
    else x :: setInsert rest c

/-- Remove from a `BTreeSet` model. -/
def setRemove (s : List Nat) (c : Nat) : List Nat :=
  s.filter (fun x => !(x == c))

/-- Membership test of a `BTreeSet` model (mirrors `BTreeSet::contains`). -/
def setContains (s : List Nat) (c : Nat) : Bool :=
  s.contains c

/-- Gateway snapshot entry, from `GatewayData` in
`common_chain_gateway_state_service.rs`. -/
structure GatewayData where
  last_block_number : Nat
  enclave_pub_key : Nat
  address : Nat
  stake_amount : Nat
  status : Bool
  req_chain_ids : List Nat
  deriving Repr, DecidableEq, Inhabited

/-- Cycle snapshot: `BTreeMap<Bytes, GatewayData>` keyed by enclave public key. -/
abbrev Snapshot := List (Nat × GatewayData)

/-- Epoch state store: `BTreeMap<u64, BTreeMap<Bytes, GatewayData>>`. -/
abbrev EpochState := List (Nat × Snapshot)

/-- Outcomes of `select_gateway_for_job_id` other than a selected address.
`noEligibleGateway` is the error the specification prescribes for an empty
filtered set; the source never constructs any such value.  `emptyRangePanic`
is the `rand` panic raised by `gen_range(1..=0)`, and `indexPanic` is the
out-of-bounds indexing panic on `gateway_data_of_req_chain[index]`. -/
inductive ElectErr where
  | noEligibleGateway
  | emptyRangePanic
  | indexPanic
  deriving Repr, DecidableEq

/-- Filtering-and-accumulation loop of `select_gateway_for_job_id`
(lines 415-427): walks `all_gateways_data` in snapshot order, keeps the
entries serving `req_chain_id`, and threads the running stake total,
returning `(gateway_data_of_req_chain, stake_distribution, total_stake)`. -/
def stakeDistributionLoop (req_chain_id : Nat) :
    List GatewayData → Nat → List GatewayData × List Nat × Nat
  | [], total_stake => ([], [], total_stake)
  | g :: rest, total_stake =>
    if setContains g.req_chain_ids req_chain_id then
      let total' := total_stake + g.stake_amount
      let r := stakeDistributionLoop req_chain_id rest total'
      (g :: r.1, total' :: r.2.1, r.2.2)
    else
      stakeDistributionLoop req_chain_id rest total_stake

/-- Core loop of Rust `slice::binary_search_by` specialised to the
strict-less comparator of lines 439-445: `Less` when `probe < random_number`,
`Greater` otherwise.  The comparator never answers `Equal`, so the Rust call
always lands in the `Err(index)` case and both match arms of lines 446-449
produce this index. -/
def binarySearchLoop (dist : List Nat) (random_number : Nat) : Nat → Nat → Nat
  | left, right =>
    if h : left < right then
      let mid := left + (right - left) / 2
      if dist.getD mid 0 < random_number then
        binarySearchLoop dist random_number (mid + 1) right
      else
        binarySearchLoop dist random_number left mid
    else
      left
  termination_by left right => right - left
  decreasing_by
    · omega
    · omega

/-- Rust `stake_distribution.binary_search_by(...)` collapsed to the
selected index (lines 439-449). -/
def binary_search_by (stake_distribution : List Nat) (random_number : Nat) : Nat :=
  binarySearchLoop stake_distribution random_number 0 stake_distribution.length

/-- Selection step of `select_gateway_for_job_id` (lines 439-457): binary
search over the cumulative distribution, then index into the filtered list;
an out-of-range index is the Rust indexing panic. -/
def selectGatewayByRandomNumber (gateway_data_of_req_chain : List GatewayData)
    (stake_distribution : List Nat) (random_number : Nat) : Except ElectErr Nat :=
  let index := binary_search_by stake_distribution random_number
  match gateway_data_of_req_chain.get? index with
  | none => .error .indexPanic
  | some selected_gateway => .ok selected_gateway.address

/-- State of the PRNG after the `for _ in 0..skips` discard loop
(lines 433-435): `skips` draws of `gen_range(1..=total_stake)` are taken and
their values dropped. -/
def skipDraws {σ : Type} (gen : σ → Nat → Nat × σ) (total_stake : Nat) :
    σ → Nat → σ
  | s, 0 => s
  | s, k + 1 => skipDraws gen total_stake (gen s total_stake).2 k

/-- Value of the `(k+1)`-th draw in the sequence of sequential
`gen_range(1..=bound)` draws from a generator state, without re-seeding.
This is the reference sequence the specification compares the elector
against. -/
def drawSeq {σ : Type} (gen : σ → Nat → Nat × σ) (bound : Nat) (s : σ) : Nat → Nat
  | 0 => (gen s bound).1
  | k + 1 => drawSeq gen bound (gen s bound).2 k

/-- Shallow embedding of `select_gateway_for_job_id`
(`common_chain_interaction.rs` lines 384-458).  The cycle snapshot consulted
after the polling loop is taken as the `snapshot` argument; `gen` and
`seed_from_u64` stand for the `StdRng` draws and `StdRng::seed_from_u64`.
When `total_stake = 0` the first `rng.gen_range(1..=total_stake)` call
panics on the empty range, which the model surfaces as `emptyRangePanic`
before any draw. -/
def select_gateway_for_job_id {σ : Type} (gen : σ → Nat → Nat × σ)
    (seed_from_u64 : Nat → σ) (snapshot : Snapshot)
    (seed : Nat) (skips : Nat) (req_chain_id : Nat) : Except ElectErr Nat :=
  let all_gateways_data := snapshot.map (fun kv => kv.2)
  let fdt := stakeDistributionLoop req_chain_id all_gateways_data 0
  let gateway_data_of_req_chain := fdt.1
  let stake_distribution := fdt.2.1
  let total_stake := fdt.2.2
  if total_stake = 0 then
    .error .emptyRangePanic
  else
    let rng := seed_from_u64 seed
    let rng := skipDraws gen total_stake rng skips
    let random_number := (gen rng total_stake).1
    selectGatewayByRandomNumber gateway_data_of_req_chain stake_distribution random_number

/-! ### Epoch state service (`common_chain_gateway_state_service.rs`) -/

/-- Retention width `W` from `constant.rs`. -/
def GATEWAY_BLOCK_STATES_TO_MAINTAIN : Nat := 5

/-- Gateway-registry events after ABI decoding (the decoding itself is
plumbing done by `ethers::abi::decode` inside each `process_*` function). -/
inductive GatewayEvent where
  | registered (enclave_pub_key address stake_amount : Nat) (chain_ids : List Nat)
  | deregistered (enclave_pub_key : Nat)
  | stakeAdded (enclave_pub_key total_stake_amount : Nat)
  | stakeRemoved (enclave_pub_key total_stake_amount : Nat)
  | chainAdded (enclave_pub_key chain_id : Nat)
  | chainRemoved (enclave_pub_key chain_id : Nat)
  deriving Repr, DecidableEq

/-- Embedding of `process_gateway_registered_event` (lines 291-339): when the
`cycle` key is present, insert/overwrite the entry for the enclave public key
with `status = true` and `last_block_number = to_block_number`; the
`req_chain_ids` set is built by inserting each decoded chain id. -/
def process_gateway_registered_event (enclave_pub_key address stake_amount : Nat)
    (chain_ids : List Nat) (cycle to_block_number : Nat) (st : EpochState) : EpochState :=
  let req_chain_ids := chain_ids.foldl setInsert []
  omapModify st cycle (fun cycle_gateway_state =>
    omapInsert cycle_gateway_state enclave_pub_key
      ⟨to_block_number, enclave_pub_key, address, stake_amount, true, req_chain_ids⟩)

/-- Embedding of `process_gateway_deregistered_event` (lines 341-356): when
the `cycle` key is present, remove the entry keyed by the enclave public key. -/
def process_gateway_deregistered_event (enclave_pub_key cycle : Nat)
    (st : EpochState) : EpochState :=
  omapModify st cycle (fun cycle_gateway_state =>
    omapRemove cycle_gateway_state enclave_pub_key)

/-- Embedding of `process_gateway_stake_added_event` (lines 358-380): nested
`get_mut` on the cycle and then on the entry; absent keys leave the state
untouched. -/
def process_gateway_stake_added_event (enclave_pub_key total_stake_amount cycle : Nat)
    (st : EpochState) : EpochState :=
  omapModify st cycle (fun cycle_gateway_state =>
    omapModify cycle_gateway_state enclave_pub_key (fun gateway_data =>
      { gateway_data with stake_amount := total_stake_amount }))

/-- Embedding of `process_gateway_stake_removed_event` (lines 382-404). -/
def process_gateway_stake_removed_event (enclave_pub_key total_stake_amount cycle : Nat)
    (st : EpochState) : EpochState :=
  omapModify st cycle (fun cycle_gateway_state =>
    omapModify cycle_gateway_state enclave_pub_key (fun gateway_data =>
      { gateway_data with stake_amount := total_stake_amount }))

/-- Embedding of `process_chain_added_event` (lines 406-424). -/
def process_chain_added_event (enclave_pub_key chain_id cycle : Nat)
    (st : EpochState) : EpochState :=
  omapModify st cycle (fun cycle_gateway_state =>
    omapModify cycle_gateway_state enclave_pub_key (fun gateway_data =>
      { gateway_data with req_chain_ids := setInsert gateway_data.req_chain_ids chain_id }))

/-- Embedding of `process_chain_removed_event` (lines 426-444). -/
def process_chain_removed_event (enclave_pub_key chain_id cycle : Nat)
    (st : EpochState) : EpochState :=
  omapModify st cycle (fun cycle_gateway_state =>
    omapModify cycle_gateway_state enclave_pub_key (fun gateway_data =>
      { gateway_data with req_chain_ids := setRemove gateway_data.req_chain_ids chain_id }))

/-- Log-dispatch loop of `generate_gateway_epoch_state_for_cycle`
(lines 231-255).  Every handler receives `cycle_number` as its cycle argument
except `process_gateway_deregistered_event`, which the source at line 245
calls with `to_block_number` in the `cycle` position. -/
def processLog (cycle_number to_block_number : Nat) (st : EpochState) :
    GatewayEvent → EpochState
  | .registered pk addr stake chains =>
    process_gateway_registered_event pk addr stake chains cycle_number to_block_number st
  | .deregistered pk =>
    process_gateway_deregistered_event pk to_block_number st
  | .stakeAdded pk total =>
    process_gateway_stake_added_event pk total cycle_number st
  | .stakeRemoved pk total =>
    process_gateway_stake_removed_event pk total cycle_number st
  | .chainAdded pk chain =>
    process_chain_added_event pk chain cycle_number st
  | .chainRemoved pk chain =>
    process_chain_removed_event pk chain cycle_number st

/-- Failure modes of `generate_gateway_epoch_state_for_cycle`.
`blockNumberLookupFailed` is the explicit `Err` of lines 152-161;
`emptyPriorSnapshotPanic` is the `unwrap` panic of `.values().next().unwrap()`
(line 138-140) when the prior cycle's snapshot is empty;
`missingNewCyclePanic` is the `unwrap` panic of
`.get_mut(&cycle_number).unwrap()` (lines 189-191), reached because the
prior-cycle branch never inserts `cycle_number` before that loop. -/
inductive BuildErr where
  | blockNumberLookupFailed
  | emptyPriorSnapshotPanic
  | missingNewCyclePanic
  deriving Repr, DecidableEq

/-- Result of the descending key scan of lines 116-122: the loop walks the
keys in reverse, returns early when `cycle_number` itself is found, and
otherwise keeps overwriting `last_added_cycle` with every key below
`cycle_number`, so it ends on the smallest such key. -/
def lastAddedCycleOf (keys : List Nat) (cycle_number : Nat) : Option Nat :=
  keys.reverse.foldl (fun acc cycle => if cycle < cycle_number then some cycle else acc) none

/-- Embedding of `generate_gateway_epoch_state_for_cycle` (lines 101-260).
`to_block_number?` is the result of the external block-timestamp resolver
`get_block_number_by_timestamp`; the decoded logs of the registry contract in
`[from_block, to_block]` are the `logs` argument.  `from_block_number` is
computed for its panic on an empty prior snapshot but is otherwise consumed
only by the RPC log filter. -/
def generate_gateway_epoch_state_for_cycle (st : EpochState) (cycle_number : Nat)
    (to_block_number? : Option Nat) (logs : List GatewayEvent) : Except BuildErr EpochState :=
  if (omapKeys st).contains cycle_number then
    .ok st
  else
    let last_added_cycle := lastAddedCycleOf (omapKeys st) cycle_number
    let from_block? : Except BuildErr Nat :=
      match last_added_cycle with
      | none => .ok 0
      | some c =>
        match ((omapGet st c).getD []).head? with
        | none => .error .emptyPriorSnapshotPanic
        | some kv => .ok (kv.2.last_block_number + 1)
    match from_block? with
    | .error e => .error e
    | .ok _from_block_number =>
      match to_block_number? with
      | none => .error .blockNumberLookupFailed
      | some to_block_number =>
        match last_added_cycle with
        | none =>
          -- lines 165-171: initialise the new cycle with an empty map
          let st1 := omapInsert st cycle_number []
          .ok (logs.foldl (processLog cycle_number to_block_number) st1)
        | some last_added =>
          let last_cycle_state_map := (omapGet st last_added).getD []
          match last_cycle_state_map with
          | [] =>
            -- the per-entry loop of lines 185-204 never runs; line 208 then
            -- inserts the cloned (empty) prior snapshot
            let st1 := omapInsert st cycle_number last_cycle_state_map
            .ok (logs.foldl (processLog cycle_number to_block_number) st1)
          | _ :: _ =>
            -- first iteration of the loop of lines 185-204:
            -- `gateway_epoch_state.get_mut(&cycle_number).unwrap()` panics,
            -- since `cycle_number` has not been inserted yet
            .error .missingNewCyclePanic

/-- Embedding of `prune_old_cycle_states` (lines 262-289): walk the keys in
ascending order, collect every cycle with
`current_cycle - cycle >= GATEWAY_BLOCK_STATES_TO_MAINTAIN * 3 / 2` and stop
at the first that is younger (the loop `break`s), then remove the collected
cycles.  Subtraction is `Nat` truncated subtraction; in the claimed calling
context every stored key is at most `current_cycle`, where it agrees with
`u64` subtraction. -/
def prune_old_cycle_states (st : EpochState) (current_cycle : Nat) : EpochState :=
  let cycles_to_remove := (omapKeys st).takeWhile
    (fun cycle => decide (GATEWAY_BLOCK_STATES_TO_MAINTAIN * 3 / 2 ≤ current_cycle - cycle))
  cycles_to_remove.foldl omapRemove st

/-! ### Relay coordinator state (`common_chain_interaction.rs`) -/

/-- Transaction kind carried by a `Job`, from `ComChainJobType`. -/
inductive ComChainJobType where
  | JobRelay
  | SlashGatewayJob
  deriving Repr, DecidableEq

/-- Active-job entry, from the `Job` struct as used by
`common_chain_interaction.rs` (built in `get_job_from_job_relay_event`,
lines 235-271).  `max_gas_price`, `deposit` and `callback_deposit` are
decoded but never consulted by the verified operations. -/
structure Job where
  job_id : Nat
  req_chain_id : Nat
  tx_hash : List Nat
  code_input : List Nat
  user_timout : Nat
  starttime : Nat
  job_owner : Nat
  job_type : ComChainJobType
  retry_number : Nat
  gateway_address : Option Nat
  deriving Repr, DecidableEq

/-- Active-job table `HashMap<U256, Job>`; only keyed lookup, insert and
remove are performed on it, so the association-list model is adequate. -/
abbrev ActiveJobs := List (Nat × Job)

/-- Embedding of `remove_job` (lines 763-773): the entry is removed only when
it is present and its stored `retry_number` equals the argument job's. -/
def remove_job (active_jobs : ActiveJobs) (job : Job) : ActiveJobs :=
  match omapGet active_jobs job.job_id with
  | some stored =>
    if stored.retry_number = job.retry_number then
      omapRemove active_jobs job.job_id
    else
      active_jobs
  | none => active_jobs

/-- Embedding of `remove_job_response` (lines 958-961): the entry is removed
unconditionally, with no retry-number comparison. -/
def remove_job_response (active_jobs : ActiveJobs) (job_id : Nat) : ActiveJobs :=
  omapRemove active_jobs job_id

/-- Panic of `gateway_reassigned_handler`: `active_jobs.get(&job_id).unwrap()`
(line 491) on a job id absent from the table. -/
inductive HandlerErr where
  | missingActiveJobPanic
  deriving Repr, DecidableEq

/-- Embedding of `gateway_reassigned_handler` (lines 469-502) after ABI
decoding: return unchanged unless the old gateway is this enclave; read the
stored job (panicking when absent); drop the removal when the stored
`retry_number` differs from the event's; otherwise remove the entry. -/
def gateway_reassigned_handler (self_address : Nat) (active_jobs : ActiveJobs)
    (job_id old_gateway retry_number : Nat) : Except HandlerErr ActiveJobs :=
  if old_gateway ≠ self_address then
    .ok active_jobs
  else
    match omapGet active_jobs job_id with
    | none => .error .missingActiveJobPanic
    | some job =>
      if job.retry_number ≠ retry_number then
        .ok active_jobs
      else
        .ok (omapRemove active_jobs job_id)

/-! ### Job-relay retry loop (`job_placed_handler` / `job_relayed_slash_timer`) -/

/-- Retry cap from `constant.rs`. -/
def MAX_GATEWAY_RETRIES : Nat := 2

/-- Observable actions of the job-relay retry loop: a reassign-gateway
(slash) transaction enqueued on the common-chain channel, a relay transaction
enqueued when this gateway elected itself, and an invocation of the elector
(always called with `skips = retry_number`). -/
inductive RelayAction where
  | slashTxn (retry_number : Nat)
  | relayTxn (retry_number : Nat)
  | election (skips : Nat)
  deriving Repr, DecidableEq

mutual
/-- Action trace of `job_placed_handler` (lines 273-311) for a job at the
given `retry_number`: the elector runs (with `skips = retry_number`); when it
returns this gateway's own address the relay transaction is enqueued,
otherwise the slash timer is started.  `elected_self` abstracts the election
outcome at each retry. -/
def job_placed_trace (elected_self relayed_onchain : Nat → Bool)
    (retry_number : Nat) : List RelayAction :=
  RelayAction.election retry_number ::
    (if elected_self retry_number then
      [RelayAction.relayTxn retry_number]
    else
      job_relayed_slash_timer_trace elected_self relayed_onchain retry_number)
  termination_by (MAX_GATEWAY_RETRIES - retry_number) * 2 + 1

/-- Action trace of `job_relayed_slash_timer` (lines 313-382): when the
on-chain `jobs()` record shows the peer relayed (`relayed_onchain`), stop;
otherwise enqueue one slash transaction, increment `retry_number`, stop when
it reaches `MAX_GATEWAY_RETRIES`, and otherwise re-enter
`job_placed_handler`. -/
def job_relayed_slash_timer_trace (elected_self relayed_onchain : Nat → Bool)
    (retry_number : Nat) : List RelayAction :=
  if relayed_onchain retry_number then
    []
  else
    RelayAction.slashTxn retry_number ::
      (if h : MAX_GATEWAY_RETRIES ≤ retry_number + 1 then
        []
      else
        job_placed_trace elected_self relayed_onchain (retry_number + 1))
  termination_by (MAX_GATEWAY_RETRIES - retry_number) * 2
end

/-- Predicate for slash (reassign-gateway) transactions in a trace. -/
def isSlashTxn : RelayAction → Bool
  | .slashTxn _ => true
  | _ => false

/-- Predicate for elector invocations whose skip count has reached the cap. -/
def isLateElection : RelayAction → Bool
  | .election skips => decide (MAX_GATEWAY_RETRIES ≤ skips)
  | _ => false

/-! ### Basic lemmas about the map model -/

theorem omapGet_cons {V : Type} (kv : Nat × V) (rest : List (Nat × V)) (k : Nat) :
    omapGet (kv :: rest) k = if kv.1 = k then some kv.2 else omapGet rest k := by
  by_cases h : kv.1 = k <;> simp [omapGet, List.find?_cons, h]

theorem omapModify_cons {V : Type} (kv : Nat × V) (rest : List (Nat × V)) (k : Nat)
    (f : V → V) :
    omapModify (kv :: rest) k f =
      (if kv.1 = k then (kv.1, f kv.2) else kv) :: omapModify rest k f := rfl

theorem omapRemove_cons {V : Type} (kv : Nat × V) (rest : List (Nat × V)) (k : Nat) :
    omapRemove (kv :: rest) k =
      if kv.1 = k then omapRemove rest k else kv :: omapRemove rest k := by
  by_cases h : kv.1 = k <;> simp [omapRemove, List.filter_cons, h]

theorem omapGet_remove_self {V : Type} (m : List (Nat × V)) (k : Nat) :
    omapGet (omapRemove m k) k = none := by
  induction m with
  | nil => rfl
  | cons kv rest ih =>
    rw [omapRemove_cons]
    by_cases h : kv.1 = k
    · simpa [h] using ih
    · rw [if_neg h, omapGet_cons, if_neg h]
      exact ih

theorem omapGet_none_not_mem {V : Type} (m : List (Nat × V)) (k : Nat)
    (h : omapGet m k = none) : ∀ v : V, (k, v) ∉ m := by
  induction m with
  | nil => intro v hv; cases hv
  | cons kv rest ih =>
    rw [omapGet_cons] at h
    by_cases hk : kv.1 = k
    · rw [if_pos hk] at h; cases h
    · rw [if_neg hk] at h
      intro v hv
      rcases List.mem_cons.mp hv with hv | hv
      · exact hk (by rw [← hv])
      · exact ih h v hv

theorem omapModify_congr {V : Type} (m : List (Nat × V)) (k : Nat) (f : V → V)
    (h : ∀ v : V, (k, v) ∈ m → f v = v) : omapModify m k f = m := by
  induction m with
  | nil => rfl
  | cons kv rest ih =>
    rw [omapModify_cons, ih (fun v hv => h v (List.mem_cons_of_mem _ hv))]
    by_cases hk : kv.1 = k
    · have hkv : (k, kv.2) ∈ kv :: rest := by
        rw [← hk]; exact List.mem_cons_self _ _
      rw [if_pos hk, h kv.2 hkv]
    · rw [if_neg hk]

theorem omapModify_absent {V : Type} (m : List (Nat × V)) (k : Nat) (f : V → V)
    (h : omapGet m k = none) : omapModify m k f = m :=
  omapModify_congr m k f (fun v hv => absurd hv (omapGet_none_not_mem m k h v))

/-! ### Claim theorems: elector determinism and failure behaviour -/

/-- Example deterministic generator used by the closed witnesses: any
concrete `gen`/`seed_from_u64` pair instantiates the abstract PRNG. -/
def exGen : Nat → Nat → Nat × Nat := fun s b => (1 + s % b, s + 1)

/-- Example gateway entry serving request chain 1 with stake 100. -/
def gwServing1 : GatewayData := ⟨5, 1, 11, 100, true, [1]⟩

/-- C1: for every cycle snapshot, seed, skips value and request-chain id,
two invocations of `select_gateway_for_job_id` on equal inputs return equal
results.  The embedding makes the election a pure function of the snapshot
(iterated in the key order of the `BTreeMap`) and of the draws of the
deterministic generator seeded from the caller-supplied seed, so no other
source of randomness is consulted. -/
theorem elector_deterministic {σ : Type} (gen : σ → Nat → Nat × σ) (sf : Nat → σ)
    (snap₁ snap₂ : Snapshot) (seed₁ seed₂ skips₁ skips₂ chain₁ chain₂ : Nat)
    (hs : snap₁ = snap₂) (hseed : seed₁ = seed₂) (hskips : skips₁ = skips₂)
    (hchain : chain₁ = chain₂) :
    select_gateway_for_job_id gen sf snap₁ seed₁ skips₁ chain₁ =
      select_gateway_for_job_id gen sf snap₂ seed₂ skips₂ chain₂ := by
  subst hs hseed hskips hchain
  rfl

/-- Witness for C1 at a concrete snapshot, seed, skips and chain id. -/
theorem elector_deterministic_witness :
    select_gateway_for_job_id exGen (fun n => n) [(1, gwServing1)] 42 0 1 =
      select_gateway_for_job_id exGen (fun n => n) [(1, gwServing1)] 42 0 1 :=
  elector_deterministic exGen (fun n => n) _ _ _ _ _ _ _ _ rfl rfl rfl rfl

/-- C2 (code bug): building the snapshot of cycle 1 from the event stream
`[Registered(5), Deregistered(5)]` with `to_block_number = 100` leaves
entry 5 PRESENT in the snapshot of cycle 1: line 245 of
`common_chain_gateway_state_service.rs` passes `to_block_number` as the
`cycle` argument of `process_gateway_deregistered_event`, so the removal
targets the (absent) key 100 and is a no-op. -/
theorem deregistration_misses_cycle_snapshot :
    generate_gateway_epoch_state_for_cycle [] 1 (some 100)
        [.registered 5 7 100 [1], .deregistered 5] =
      .ok [(1, [(5, ⟨100, 5, 7, 100, true, [1]⟩)])] := rfl

/-- C3 (code bug): building cycle 2 when cycle 1 exists in the store with a
non-empty snapshot panics: the loop of lines 185-204 calls
`gateway_epoch_state.get_mut(&cycle_number).unwrap()` before the new cycle
is ever inserted.  No snapshot with updated `last_block_number` is produced. -/
theorem prior_cycle_clone_panics :
    generate_gateway_epoch_state_for_cycle
        [(1, [(5, ⟨10, 5, 7, 100, true, [1]⟩)])] 2 (some 20) [] =
      .error .missingNewCyclePanic := rfl

/-- Helper for C4: when the filtering loop keeps no gateway, the running
stake total is returned unchanged. -/
theorem stakeDistributionLoop_total_of_nil (req_chain_id : Nat) :
    ∀ (gws : List GatewayData) (acc : Nat),
      (stakeDistributionLoop req_chain_id gws acc).1 = [] →
      (stakeDistributionLoop req_chain_id gws acc).2.2 = acc := by
  intro gws
  induction gws with
  | nil => intro acc _; rfl
  | cons g rest ih =>
    intro acc h
    by_cases hc : setContains g.req_chain_ids req_chain_id
    · simp [stakeDistributionLoop, hc] at h
    · simpa [stakeDistributionLoop, hc] using ih acc (by simpa [stakeDistributionLoop, hc] using h)

/-- C4 counterexample: with a snapshot whose only gateway serves chain 1,
electing for request chain 2 produces the `gen_range(1..=0)` panic, not a
`NoEligibleGateway` error (no such error value is ever constructed by the
source). -/
theorem empty_filter_panic_counterexample :
    select_gateway_for_job_id exGen (fun n => n) [(1, gwServing1)] 42 0 2 =
        .error .emptyRangePanic ∧
      (Except.error ElectErr.emptyRangePanic : Except ElectErr Nat) ≠
        .error .noEligibleGateway := by
  refine ⟨rfl, ?_⟩
  intro h
  cases h

/-- C4 amended: if no gateway entry in the consulted snapshot has the job's
request-chain id in its `chain_ids` set, the elector fails by panicking on
`rng.gen_range(1..=total_stake)` with `total_stake = 0` (the empty range),
rather than selecting a gateway or returning a `NoEligibleGateway` error. -/
theorem empty_filter_panics {σ : Type} (gen : σ → Nat → Nat × σ) (sf : Nat → σ)
    (snapshot : Snapshot) (seed skips req_chain_id : Nat)
    (h : (stakeDistributionLoop req_chain_id (snapshot.map (fun kv => kv.2)) 0).1 = []) :
    select_gateway_for_job_id gen sf snapshot seed skips req_chain_id =
      .error .emptyRangePanic := by
  have htotal := stakeDistributionLoop_total_of_nil req_chain_id
    (snapshot.map (fun kv => kv.2)) 0 h
  unfold select_gateway_for_job_id
  rw [if_pos htotal]

/-- Witness for C4 amended at the concrete counterexample input. -/
theorem empty_filter_panics_witness :
    select_gateway_for_job_id exGen (fun n => n) [(1, gwServing1)] 42 0 2 =
      .error .emptyRangePanic :=
  empty_filter_panics exGen (fun n => n) [(1, gwServing1)] 42 0 2 rfl

/-- Example active-job entry with `retry_number = 1`. -/
def exJob : Job := ⟨7, 1, [], [], 5, 9, 3, .JobRelay, 1, none⟩

/-- C5 counterexample: the response-delivery removal `remove_job_response`
erases the active-job entry although the stored `retry_number` (1) differs
from the terminating `JobResponse`'s `retry_number` (0, as set by
`get_job_from_job_responded_event`); the table is not left unchanged. -/
theorem remove_job_response_ignores_retry_counterexample :
    exJob.retry_number ≠ 0 ∧
      remove_job_response [(7, exJob)] 7 = [] := by
  exact ⟨by decide, rfl⟩

/-- C5 amended: `remove_job` and the `GatewayReassigned` handler remove the
active-job entry only when the stored `retry_number` equals the terminating
event's and otherwise leave the table unchanged, but `remove_job_response`
(the removal after a delivered response transaction) removes the entry
unconditionally, with no retry-number comparison. -/
theorem active_job_removal_retry_policy :
    (∀ (active_jobs : ActiveJobs) (job stored : Job),
        omapGet active_jobs job.job_id = some stored →
        stored.retry_number ≠ job.retry_number →
        remove_job active_jobs job = active_jobs) ∧
    (∀ (self_address : Nat) (active_jobs : ActiveJobs)
        (job_id old_gateway retry_number : Nat) (stored : Job),
        omapGet active_jobs job_id = some stored →
        stored.retry_number ≠ retry_number →
        gateway_reassigned_handler self_address active_jobs job_id old_gateway
            retry_number = .ok active_jobs) ∧
    (∀ (active_jobs : ActiveJobs) (job_id : Nat),
        omapGet (remove_job_response active_jobs job_id) job_id = none) := by
  refine ⟨?_, ?_, ?_⟩
  · intro active_jobs job stored hget hne
    unfold remove_job
    rw [hget]
    simp [hne]
  · intro self_address active_jobs job_id old_gateway retry_number stored hget hne
    unfold gateway_reassigned_handler
    by_cases hself : old_gateway ≠ self_address
    · rw [if_pos hself]
    · rw [if_neg hself, hget]
      simp [hne]
  · intro active_jobs job_id
    exact omapGet_remove_self active_jobs job_id

/-- Witness for C5 amended: all three conjuncts applied at concrete tables. -/
theorem active_job_removal_retry_policy_witness :
    remove_job [(7, exJob)] { exJob with retry_number := 0 } = [(7, exJob)] ∧
    gateway_reassigned_handler 3 [(7, exJob)] 7 3 0 = .ok [(7, exJob)] ∧
    omapGet (remove_job_response [(7, exJob)] 7) 7 = none :=
  ⟨active_job_removal_retry_policy.1 [(7, exJob)] _ exJob rfl (by decide),
   active_job_removal_retry_policy.2.1 3 [(7, exJob)] 7 3 0 exJob rfl (by decide),
   active_job_removal_retry_policy.2.2 [(7, exJob)] 7⟩

/-- C10: folding a stake-added, stake-removed, chain-added or chain-removed
event whose enclave public key has no entry in the target cycle's snapshot
leaves the epoch state completely unchanged: the nested `get_mut` lookups
silently drop the update instead of creating an entry or failing. -/
theorem missing_entry_updates_dropped (st : EpochState)
    (cycle enclave_pub_key total_stake_amount chain_id : Nat)
    (h : ∀ snap : Snapshot, (cycle, snap) ∈ st → omapGet snap enclave_pub_key = none) :
    process_gateway_stake_added_event enclave_pub_key total_stake_amount cycle st = st ∧
    process_gateway_stake_removed_event enclave_pub_key total_stake_amount cycle st = st ∧
    process_chain_added_event enclave_pub_key chain_id cycle st = st ∧
    process_chain_removed_event enclave_pub_key chain_id cycle st = st := by
  have key : ∀ f : GatewayData → GatewayData,
      omapModify st cycle (fun snap => omapModify snap enclave_pub_key f) = st := by
    intro f
    exact omapModify_congr st cycle _
      (fun snap hmem => omapModify_absent snap enclave_pub_key f (h snap hmem))
  exact ⟨key _, key _, key _, key _⟩

/-- Witness for C10 at a concrete store whose cycle-1 snapshot holds only
key 3, with the events targeting key 5. -/
theorem missing_entry_updates_dropped_witness :
    process_gateway_stake_added_event 5 250 1 [(1, [(3, gwServing1)])] =
        [(1, [(3, gwServing1)])] ∧
    process_gateway_stake_removed_event 5 250 1 [(1, [(3, gwServing1)])] =
        [(1, [(3, gwServing1)])] ∧
    process_chain_added_event 5 2 1 [(1, [(3, gwServing1)])] =
        [(1, [(3, gwServing1)])] ∧
    process_chain_removed_event 5 2 1 [(1, [(3, gwServing1)])] =
        [(1, [(3, gwServing1)])] :=
  missing_entry_updates_dropped [(1, [(3, gwServing1)])] 1 5 250 2
    (by
      intro snap hmem
      rw [List.mem_singleton] at hmem
      injection hmem with h1 h2
      rw [h2]
      rfl)

/-! ### Claim theorems: skip semantics of the PRNG draws -/

/-- Drawing once after the `skips`-long discard loop yields exactly the
`(k+1)`-th element of the sequential draw sequence from the once-seeded
state. -/
theorem gen_skipDraws_eq_drawSeq {σ : Type} (gen : σ → Nat → Nat × σ) (bound : Nat) :
    ∀ (k : Nat) (s : σ), (gen (skipDraws gen bound s k) bound).1 = drawSeq gen bound s k := by
  intro k
  induction k with
  | zero => intro s; rfl
  | succ n ih => intro s; exact ih (gen s bound).2

/-- C6: for a fixed seed and snapshot, the elector invoked with `skips = k`
selects by the `(k+1)`-th draw of a single PRNG sequence seeded once with
that seed: its result is the bucket selection applied to `drawSeq ... k`,
the sequence of sequential draws without re-seeding, for every `k`. -/
theorem elector_skips_eq_sequential_draws {σ : Type} (gen : σ → Nat → Nat × σ)
    (sf : Nat → σ) (snapshot : Snapshot) (seed skips req_chain_id : Nat)
    (h : (stakeDistributionLoop req_chain_id (snapshot.map (fun kv => kv.2)) 0).2.2 ≠ 0) :
    select_gateway_for_job_id gen sf snapshot seed skips req_chain_id =
      selectGatewayByRandomNumber
        (stakeDistributionLoop req_chain_id (snapshot.map (fun kv => kv.2)) 0).1
        (stakeDistributionLoop req_chain_id (snapshot.map (fun kv => kv.2)) 0).2.1
        (drawSeq gen
          (stakeDistributionLoop req_chain_id (snapshot.map (fun kv => kv.2)) 0).2.2
          (sf seed) skips) := by
  simp only [select_gateway_for_job_id]
  rw [if_neg h, gen_skipDraws_eq_drawSeq]

/-- Example two-gateway snapshot on chain 1, stakes 100 and 300. -/
def exSnapshot : Snapshot :=
  [(1, ⟨5, 1, 11, 100, true, [1]⟩), (2, ⟨5, 2, 22, 300, true, [1]⟩)]

/-- Witness for C6 at the concrete two-gateway snapshot with skips = 1. -/
theorem elector_skips_eq_sequential_draws_witness :
    select_gateway_for_job_id exGen (fun n => n) exSnapshot 42 1 1 =
      selectGatewayByRandomNumber
        (stakeDistributionLoop 1 (exSnapshot.map (fun kv => kv.2)) 0).1
        (stakeDistributionLoop 1 (exSnapshot.map (fun kv => kv.2)) 0).2.1
        (drawSeq exGen
          (stakeDistributionLoop 1 (exSnapshot.map (fun kv => kv.2)) 0).2.2
          ((fun n => n) 42) 1) :=
  elector_skips_eq_sequential_draws exGen (fun n => n) exSnapshot 42 1 1 (by decide)

/-! ### Properties of the cumulative stake distribution -/

theorem stakeDistributionLoop_length (req_chain_id : Nat) :
    ∀ (gws : List GatewayData) (acc : Nat),
      (stakeDistributionLoop req_chain_id gws acc).2.1.length =
        (stakeDistributionLoop req_chain_id gws acc).1.length := by
  intro gws
  induction gws with
  | nil => intro acc; rfl
  | cons g rest ih =>
    intro acc
    by_cases hc : setContains g.req_chain_ids req_chain_id <;>
      simp [stakeDistributionLoop, hc, ih]

theorem stakeDistributionLoop_mem_le (req_chain_id : Nat) :
    ∀ (gws : List GatewayData) (acc x : Nat),
      x ∈ (stakeDistributionLoop req_chain_id gws acc).2.1 → acc ≤ x := by
  intro gws
  induction gws with
  | nil => intro acc x hx; cases hx
  | cons g rest ih =>
    intro acc x hx
    by_cases hc : setContains g.req_chain_ids req_chain_id
    · simp only [stakeDistributionLoop, hc, if_pos] at hx
      rcases List.mem_cons.mp hx with hx | hx
      · omega
      · have := ih (acc + g.stake_amount) x hx
        omega
    · simp only [stakeDistributionLoop, hc] at hx
      exact ih acc x (by simpa using hx)

theorem stakeDistributionLoop_sorted (req_chain_id : Nat) :
    ∀ (gws : List GatewayData) (acc : Nat),
      List.Pairwise (· ≤ ·) (stakeDistributionLoop req_chain_id gws acc).2.1 := by
  intro gws
  induction gws with
  | nil => intro acc; exact List.Pairwise.nil
  | cons g rest ih =>
    intro acc
    by_cases hc : setContains g.req_chain_ids req_chain_id
    · simp only [stakeDistributionLoop, hc, if_pos]
      exact List.pairwise_cons.mpr
        ⟨fun x hx => stakeDistributionLoop_mem_le req_chain_id rest (acc + g.stake_amount) x hx,
         ih (acc + g.stake_amount)⟩
    · simpa [stakeDistributionLoop, hc] using ih acc

/-- The last entry of the cumulative distribution is the final stake total. -/
theorem stakeDistributionLoop_last (req_chain_id : Nat) :
    ∀ (gws : List GatewayData) (acc : Nat),
      (stakeDistributionLoop req_chain_id gws acc).2.1 ≠ [] →
      (stakeDistributionLoop req_chain_id gws acc).2.1.getD
          ((stakeDistributionLoop req_chain_id gws acc).2.1.length - 1) 0 =
        (stakeDistributionLoop req_chain_id gws acc).2.2 := by
  intro gws
  induction gws with
  | nil => intro acc h; exact absurd rfl h
  | cons g rest ih =>
    intro acc hne0
    by_cases hc : setContains g.req_chain_ids req_chain_id
    · simp only [stakeDistributionLoop, hc, if_pos]
      rcases hds : (stakeDistributionLoop req_chain_id rest (acc + g.stake_amount)).2.1
        with _ | ⟨d, ds⟩
      · have hfil : (stakeDistributionLoop req_chain_id rest (acc + g.stake_amount)).1 = [] := by
          have hl := stakeDistributionLoop_length req_chain_id rest (acc + g.stake_amount)
          rw [hds] at hl
          exact List.eq_nil_of_length_eq_zero hl.symm
        have ht := stakeDistributionLoop_total_of_nil req_chain_id rest
          (acc + g.stake_amount) hfil
        simp [hds, ht]
      · have := ih (acc + g.stake_amount) (by rw [hds]; exact List.cons_ne_nil _ _)
        rw [hds] at this
        simpa [hds, List.length_cons] using this
    · have h2 : stakeDistributionLoop req_chain_id (g :: rest) acc =
          stakeDistributionLoop req_chain_id rest acc := by
        simp [stakeDistributionLoop, hc]
      rw [h2] at hne0 ⊢
      exact ih acc hne0

/-- Monotone `getD` access derived from pairwise sortedness. -/
theorem pairwise_le_getD_mono (l : List Nat) (hp : List.Pairwise (· ≤ ·) l) :
    ∀ i j : Nat, i ≤ j → j < l.length → l.getD i 0 ≤ l.getD j 0 := by
  intro i j hij hj
  rcases Nat.eq_or_lt_of_le hij with rfl | hlt
  · exact Nat.le_refl _
  · have hi : i < l.length := Nat.lt_trans hlt hj
    rw [List.getD_eq_getElem l 0 hi, List.getD_eq_getElem l 0 hj]
    have := List.pairwise_iff_get.mp hp ⟨i, hi⟩ ⟨j, hj⟩ hlt
    simpa using this

/-! ### Binary-search characterisation -/

/-- Loop invariant of the Rust binary search with the strict-less comparator:
everything strictly below the returned index is `< random_number`, everything
at or above it (within bounds) is `≥ random_number`, and the index stays in
range. -/
theorem binarySearchLoop_spec (dist : List Nat) (r : Nat)
    (hmono : ∀ i j : Nat, i ≤ j → j < dist.length → dist.getD i 0 ≤ dist.getD j 0) :
    ∀ (n left right : Nat), right - left ≤ n → left ≤ right → right ≤ dist.length →
      (∀ i, i < left → dist.getD i 0 < r) →
      (∀ i, right ≤ i → i < dist.length → r ≤ dist.getD i 0) →
      (∀ i, i < binarySearchLoop dist r left right → dist.getD i 0 < r) ∧
      (∀ i, binarySearchLoop dist r left right ≤ i → i < dist.length →
        r ≤ dist.getD i 0) ∧
      binarySearchLoop dist r left right ≤ dist.length := by
  intro n
  induction n with
  | zero =>
    intro left right hn hlr hlen hlo hhi
    have h : ¬ left < right := by omega
    rw [binarySearchLoop, dif_neg h]
    exact ⟨hlo, fun i hi hil => hhi i (by omega) hil, by omega⟩
  | succ n ih =>
    intro left right hn hlr hlen hlo hhi
    by_cases h : left < right
    · rw [binarySearchLoop, dif_pos h]
      have hmidlt : left + (right - left) / 2 < right := by omega
      have hmidlen : left + (right - left) / 2 < dist.length := by omega
      by_cases hcmp : dist.getD (left + (right - left) / 2) 0 < r
      · rw [if_pos hcmp]
        refine ih (left + (right - left) / 2 + 1) right (by omega) (by omega) hlen ?_ hhi
        intro i hi
        exact Nat.lt_of_le_of_lt (hmono i (left + (right - left) / 2) (by omega) hmidlen) hcmp
      · rw [if_neg hcmp]
        refine ih left (left + (right - left) / 2) (by omega) (by omega) (by omega) hlo ?_
        intro i hmi hil
        exact Nat.le_trans (Nat.not_lt.mp hcmp) (hmono _ i hmi hil)
    · rw [binarySearchLoop, dif_neg h]
      exact ⟨hlo, fun i hi hil => hhi i (by omega) hil, by omega⟩

/-- Partition-point characterisation of `binary_search_by`. -/
theorem binary_search_by_spec (dist : List Nat) (r : Nat)
    (hmono : ∀ i j : Nat, i ≤ j → j < dist.length → dist.getD i 0 ≤ dist.getD j 0) :
    (∀ i, i < binary_search_by dist r → dist.getD i 0 < r) ∧
    (∀ i, binary_search_by dist r ≤ i → i < dist.length → r ≤ dist.getD i 0) ∧
    binary_search_by dist r ≤ dist.length :=
  binarySearchLoop_spec dist r hmono dist.length 0 dist.length (by omega) (by omega)
    (Nat.le_refl _) (fun i hi => by omega) (fun i hi hil => by omega)

/-- C7: for a non-empty filtered gateway list with cumulative distribution
`D` and a drawn value `r` with `1 ≤ r ≤ D[n-1]`, the selection step returns
the entry at the smallest index `i` with `D[i] ≥ r`: the returned index is in
range, every earlier cumulative bound is `< r`, and `D[i] ≥ r`, so `r` lies
in the half-open bucket `(D[i-1], D[i]]` and ties resolve to the first bucket
whose bound meets or exceeds `r`. -/
theorem bucket_selection (gws : List GatewayData) (req_chain_id r : Nat)
    (hne : (stakeDistributionLoop req_chain_id gws 0).1 ≠ [])
    (h1 : 1 ≤ r)
    (h2 : r ≤ (stakeDistributionLoop req_chain_id gws 0).2.2) :
    binary_search_by (stakeDistributionLoop req_chain_id gws 0).2.1 r <
        (stakeDistributionLoop req_chain_id gws 0).1.length ∧
    selectGatewayByRandomNumber (stakeDistributionLoop req_chain_id gws 0).1
        (stakeDistributionLoop req_chain_id gws 0).2.1 r =
      .ok (((stakeDistributionLoop req_chain_id gws 0).1.getD
        (binary_search_by (stakeDistributionLoop req_chain_id gws 0).2.1 r)
        default).address) ∧
    r ≤ (stakeDistributionLoop req_chain_id gws 0).2.1.getD
        (binary_search_by (stakeDistributionLoop req_chain_id gws 0).2.1 r) 0 ∧
    ∀ j, j < binary_search_by (stakeDistributionLoop req_chain_id gws 0).2.1 r →
      (stakeDistributionLoop req_chain_id gws 0).2.1.getD j 0 < r := by
  have hlen := stakeDistributionLoop_length req_chain_id gws 0
  have hsorted := stakeDistributionLoop_sorted req_chain_id gws 0
  have hmono := pairwise_le_getD_mono _ hsorted
  obtain ⟨hbelow, habove, hle⟩ :=
    binary_search_by_spec (stakeDistributionLoop req_chain_id gws 0).2.1 r hmono
  have hfglen : 0 < (stakeDistributionLoop req_chain_id gws 0).1.length :=
    List.length_pos.mpr hne
  have hdlen : 0 < (stakeDistributionLoop req_chain_id gws 0).2.1.length := by omega
  have hdne : (stakeDistributionLoop req_chain_id gws 0).2.1 ≠ [] :=
    List.ne_nil_of_length_pos hdlen
  have hlast := stakeDistributionLoop_last req_chain_id gws 0 hdne
  have hidx : binary_search_by (stakeDistributionLoop req_chain_id gws 0).2.1 r <
      (stakeDistributionLoop req_chain_id gws 0).2.1.length := by
    by_contra hge
    have heq : binary_search_by (stakeDistributionLoop req_chain_id gws 0).2.1 r =
        (stakeDistributionLoop req_chain_id gws 0).2.1.length := by omega
    have := hbelow ((stakeDistributionLoop req_chain_id gws 0).2.1.length - 1) (by omega)
    omega
  refine ⟨by omega, ?_, habove _ (Nat.le_refl _) hidx, hbelow⟩
  have hfg : binary_search_by (stakeDistributionLoop req_chain_id gws 0).2.1 r <
      (stakeDistributionLoop req_chain_id gws 0).1.length := by omega
  have hsome : (stakeDistributionLoop req_chain_id gws 0).1.get?
      (binary_search_by (stakeDistributionLoop req_chain_id gws 0).2.1 r) =
      some ((stakeDistributionLoop req_chain_id gws 0).1.getD
        (binary_search_by (stakeDistributionLoop req_chain_id gws 0).2.1 r) default) := by
    rw [List.getD_eq_getElem _ default hfg, List.get?_eq_getElem?,
      List.getElem?_eq_getElem hfg]
  simp only [selectGatewayByRandomNumber, hsome]

/-- Witness for C7: two gateways with stakes 100 and 300 on chain 1 and the
draw `r = 150` select the second entry (cumulative bucket `(100, 400]`). -/
theorem bucket_selection_witness :
    binary_search_by (stakeDistributionLoop 1 (exSnapshot.map (fun kv => kv.2)) 0).2.1 150 <
        (stakeDistributionLoop 1 (exSnapshot.map (fun kv => kv.2)) 0).1.length ∧
    selectGatewayByRandomNumber (stakeDistributionLoop 1 (exSnapshot.map (fun kv => kv.2)) 0).1
        (stakeDistributionLoop 1 (exSnapshot.map (fun kv => kv.2)) 0).2.1 150 =
      .ok (((stakeDistributionLoop 1 (exSnapshot.map (fun kv => kv.2)) 0).1.getD
        (binary_search_by (stakeDistributionLoop 1 (exSnapshot.map (fun kv => kv.2)) 0).2.1 150)
        default).address) ∧
    150 ≤ (stakeDistributionLoop 1 (exSnapshot.map (fun kv => kv.2)) 0).2.1.getD
        (binary_search_by (stakeDistributionLoop 1 (exSnapshot.map (fun kv => kv.2)) 0).2.1 150) 0 ∧
    ∀ j, j < binary_search_by (stakeDistributionLoop 1 (exSnapshot.map (fun kv => kv.2)) 0).2.1 150 →
      (stakeDistributionLoop 1 (exSnapshot.map (fun kv => kv.2)) 0).2.1.getD j 0 < 150 :=
  bucket_selection (exSnapshot.map (fun kv => kv.2)) 1 150 (by decide) (by decide) (by decide)

/-! ### Pruning: retention bound -/

theorem omapKeys_cons {V : Type} (kv : Nat × V) (rest : List (Nat × V)) :
    omapKeys (kv :: rest) = kv.1 :: omapKeys rest := rfl

theorem omapKeys_remove {V : Type} (m : List (Nat × V)) (k : Nat) :
    omapKeys (omapRemove m k) = (omapKeys m).filter (fun c => !(c == k)) := by
  induction m with
  | nil => rfl
  | cons kv rest ih =>
    rw [omapRemove_cons, omapKeys_cons, List.filter_cons]
    by_cases h : kv.1 = k
    · rw [if_pos h, ih]
      simp [h]
    · rw [if_neg h, omapKeys_cons, ih]
      simp [h]

theorem mem_keys_remove {V : Type} (m : List (Nat × V)) (k c : Nat) :
    c ∈ omapKeys (omapRemove m k) ↔ c ∈ omapKeys m ∧ c ≠ k := by
  rw [omapKeys_remove]
  simp [List.mem_filter]

theorem mem_keys_foldl_remove {V : Type} :
    ∀ (rem : List Nat) (m : List (Nat × V)) (c : Nat),
      c ∈ omapKeys (rem.foldl omapRemove m) → c ∈ omapKeys m ∧ c ∉ rem := by
  intro rem
  induction rem with
  | nil => intro m c h; exact ⟨h, by simp⟩
  | cons r rs ih =>
    intro m c h
    obtain ⟨h1, h2⟩ := ih (omapRemove m r) c h
    obtain ⟨h3, h4⟩ := (mem_keys_remove m r c).mp h1
    refine ⟨h3, ?_⟩
    intro hmem
    rcases List.mem_cons.mp hmem with rfl | hm
    · exact h4 rfl
    · exact h2 hm

theorem pairwise_keys_foldl_remove {V : Type} :
    ∀ (rem : List Nat) (m : List (Nat × V)),
      List.Pairwise (· < ·) (omapKeys m) →
      List.Pairwise (· < ·) (omapKeys (rem.foldl omapRemove m)) := by
  intro rem
  induction rem with
  | nil => intro m h; exact h
  | cons r rs ih =>
    intro m h
    refine ih (omapRemove m r) ?_
    rw [omapKeys_remove]
    exact h.sublist (List.filter_sublist _)

/-- Every member of a strictly ascending list that escaped `takeWhile p`
fails `p`, provided `p` is antitone along the order. -/
theorem takeWhile_complete {p : Nat → Bool}
    (hanti : ∀ a b : Nat, a ≤ b → p b = true → p a = true) :
    ∀ (l : List Nat), List.Pairwise (· < ·) l →
      ∀ x ∈ l, x ∉ l.takeWhile p → p x = false := by
  intro l
  induction l with
  | nil => intro _ x hx; cases hx
  | cons a t ih =>
    intro hp x hx hnx
    rcases List.mem_cons.mp hx with rfl | hx'
    · by_cases hpa : p x = true
      · exact absurd (by rw [List.takeWhile_cons_of_pos hpa]; exact List.mem_cons_self _ _) hnx
      · simpa using hpa
    · by_cases hpa : p a = true
      · rw [List.takeWhile_cons_of_pos hpa] at hnx
        exact ih (List.pairwise_cons.mp hp).2 x hx'
          (fun hmem => hnx (List.mem_cons_of_mem _ hmem))
      · by_cases hpx : p x = true
        · have hax : a < x := (List.pairwise_cons.mp hp).1 x hx'
          exact absurd (hanti a x (Nat.le_of_lt hax) hpx) hpa
        · simpa using hpx

/-- A strictly ascending list of naturals inside `[lo, hi]` has at most
`hi + 1 - lo` members. -/
theorem pairwise_lt_length_le :
    ∀ (l : List Nat) (lo hi : Nat), List.Pairwise (· < ·) l →
      (∀ x ∈ l, lo ≤ x ∧ x ≤ hi) → l.length ≤ hi + 1 - lo := by
  intro l
  induction l with
  | nil => intro lo hi _ _; simp
  | cons a t ih =>
    intro lo hi hp hb
    have ha := hb a (List.mem_cons_self _ _)
    have ht : ∀ x ∈ t, a + 1 ≤ x ∧ x ≤ hi := fun x hx =>
      ⟨(List.pairwise_cons.mp hp).1 x hx, (hb x (List.mem_cons_of_mem _ hx)).2⟩
    have := ih (a + 1) hi (List.pairwise_cons.mp hp).2 ht
    rw [List.length_cons]
    omega

/-- C8: after `prune_old_cycle_states(current_cycle)` on a well-formed store
whose keys do not exceed the just-built `current_cycle`, every remaining
cycle `c` satisfies `current_cycle - c < ⌊1.5·W⌋ = 7`, and at most `⌊1.5·W⌋`
cycles remain. -/
theorem prune_retention_bound (st : EpochState) (current_cycle : Nat)
    (hwf : List.Pairwise (· < ·) (omapKeys st))
    (hle : ∀ c ∈ omapKeys st, c ≤ current_cycle) :
    (∀ c ∈ omapKeys (prune_old_cycle_states st current_cycle),
      current_cycle - c < GATEWAY_BLOCK_STATES_TO_MAINTAIN * 3 / 2) ∧
    (omapKeys (prune_old_cycle_states st current_cycle)).length ≤
      GATEWAY_BLOCK_STATES_TO_MAINTAIN * 3 / 2 := by
  have hW : GATEWAY_BLOCK_STATES_TO_MAINTAIN * 3 / 2 = 7 := rfl
  have hanti : ∀ a b : Nat, a ≤ b →
      (fun cycle => decide (GATEWAY_BLOCK_STATES_TO_MAINTAIN * 3 / 2 ≤ current_cycle - cycle)) b
        = true →
      (fun cycle => decide (GATEWAY_BLOCK_STATES_TO_MAINTAIN * 3 / 2 ≤ current_cycle - cycle)) a
        = true := by
    intro a b hab hpb
    simp only [decide_eq_true_eq] at hpb ⊢
    omega
  have hpart : ∀ c ∈ omapKeys (prune_old_cycle_states st current_cycle),
      c ≤ current_cycle ∧ current_cycle - c < 7 := by
    intro c hc
    simp only [prune_old_cycle_states] at hc
    obtain ⟨hmem, hnin⟩ := mem_keys_foldl_remove _ st c hc
    have hpc := takeWhile_complete hanti (omapKeys st) hwf c hmem hnin
    simp only [decide_eq_false_iff_not] at hpc
    exact ⟨hle c hmem, by omega⟩
  refine ⟨fun c hc => by rw [hW]; exact (hpart c hc).2, ?_⟩
  have hpw : List.Pairwise (· < ·) (omapKeys (prune_old_cycle_states st current_cycle)) := by
    simp only [prune_old_cycle_states]
    exact pairwise_keys_foldl_remove _ st hwf
  have hbounds : ∀ x ∈ omapKeys (prune_old_cycle_states st current_cycle),
      current_cycle + 1 - 7 ≤ x ∧ x ≤ current_cycle := by
    intro x hx
    have := hpart x hx
    omega
  have := pairwise_lt_length_le (omapKeys (prune_old_cycle_states st current_cycle))
    (current_cycle + 1 - 7) current_cycle hpw hbounds
  rw [hW]
  omega

/-- Example store holding cycles 1 through 10 (empty snapshots). -/
def exStore10 : EpochState :=
  [(1, []), (2, []), (3, []), (4, []), (5, []), (6, []), (7, []), (8, []), (9, []), (10, [])]

/-- Witness for C8 at a ten-cycle store pruned at `current_cycle = 10`. -/
theorem prune_retention_bound_witness :
    (∀ c ∈ omapKeys (prune_old_cycle_states exStore10 10),
      10 - c < GATEWAY_BLOCK_STATES_TO_MAINTAIN * 3 / 2) ∧
    (omapKeys (prune_old_cycle_states exStore10 10)).length ≤
      GATEWAY_BLOCK_STATES_TO_MAINTAIN * 3 / 2 :=
  prune_retention_bound exStore10 10 (by decide) (by decide)

/-! ### Retry bound of the job-relay loop -/

/-- C9: for every election outcome and on-chain relay observation, the
job-relay retry loop of a job entering at `retry_number = 0` enqueues at most
`MAX_GATEWAY_RETRIES = 2` slash (reassign-gateway) transactions, and never
invokes the elector with a skip count at or above `MAX_GATEWAY_RETRIES`. -/
theorem slash_txn_bound (elected_self relayed_onchain : Nat → Bool) :
    (job_placed_trace elected_self relayed_onchain 0).countP isSlashTxn ≤
        MAX_GATEWAY_RETRIES ∧
    (job_placed_trace elected_self relayed_onchain 0).countP isLateElection = 0 := by
  by_cases h0 : elected_self 0 <;>
    by_cases hr0 : relayed_onchain 0 <;>
      by_cases h1 : elected_self 1 <;>
        by_cases hr1 : relayed_onchain 1 <;>
          simp [job_placed_trace, job_relayed_slash_timer_trace, h0, hr0, h1, hr1,
            isSlashTxn, isLateElection, MAX_GATEWAY_RETRIES, List.countP_cons]

end ServerlessGateway
